import Mathlib

/-!
Verification development for the Intelligent Materials Science Literature
Mining Platform (V3.0): a shallow embedding, in Lean 4, of the core data
pipeline of the repository — the JSON flattener (`utils.py`), the retry /
response-cleaning layer of the API clients (`api_clients.py`), and the
batch orchestrator (`data_processor.py`) — together with theorems settling
the specification claims about those components.

Machine-level conventions of the embedding:
* Python `dict` values coming back from the LLM are modelled by the
  inductive type `Json` below (number literals are modelled as integers,
  which covers every value the claims exercise); a Python dict is an
  insertion-ordered association list, exactly as CPython guarantees.
* A pandas cell is `Cell := Option Json`, with `none` standing for a
  missing / NaN cell.
* Fallible Python code is modelled with `Option` / `Except`: an
  `Except.error` value stands for an exception escaping the function.
-/

/-- JSON values as produced by `json.loads` in `api_clients.py`.  Number
literals are modelled as integers (ample for every claim). -/
inductive Json where
  | null : Json
  | bool : Bool → Json
  | num : Int → Json
  | str : String → Json
  | arr : List Json → Json
  | obj : List (String × Json) → Json
deriving Repr

mutual

/-- Python `repr` of a value, as used by `str()` on container elements
(`', '.join(map(str, v))` in `utils.flatten_json_result`). -/
def pyRepr : Json → String
  | .null => "None"
  | .bool true => "True"
  | .bool false => "False"
  | .num n => toString n
  | .str s => "\x27" ++ s ++ "\x27"
  | .arr xs => "[" ++ pyReprList xs ++ "]"
  | .obj kvs => "\x7b" ++ pyReprObj kvs ++ "\x7d"

/-- Comma-joined `repr` of list elements. -/
def pyReprList : List Json → String
  | [] => ""
  | [x] => pyRepr x
  | x :: y :: xs => pyRepr x ++ ", " ++ pyReprList (y :: xs)

/-- Comma-joined `repr` of dict members. -/
def pyReprObj : List (String × Json) → String
  | [] => ""
  | [(k, v)] => "\x27" ++ k ++ "\x27: " ++ pyRepr v
  | (k, v) :: m :: xs => "\x27" ++ k ++ "\x27: " ++ pyRepr v ++ ", " ++ pyReprObj (m :: xs)

end

/-- Comma-separated join, mirroring Python `sep.join(parts)`. -/
def joinSep (sep : String) : List String → String
  | [] => ""
  | [x] => x
  | x :: y :: xs => x ++ sep ++ joinSep sep (y :: xs)

/-- Python `str()` of a value: identity on strings, `repr`-like otherwise. -/
def pyStr : Json → String
  | .str s => s
  | v => pyRepr v

/-- Setting `d[k] = v` on a Python dict: replaces the value in place if the
key exists (keeping insertion order), appends at the end otherwise. -/
def dictInsert {α : Type} : List (String × α) → String → α → List (String × α)
  | [], k, v => [(k, v)]
  | (k1, v1) :: rest, k, v =>
    if k1 = k then (k1, v) :: rest else (k1, v1) :: dictInsert rest k v

/-- Python `d.update(news)` / `{**d, **news}` on insertion-ordered dicts. -/
def dictUpdate {α : Type} (d news : List (String × α)) : List (String × α) :=
  news.foldl (fun acc p => dictInsert acc p.1 p.2) d

/-- Scalar (neither dict nor list) test, mirroring the `isinstance` branches
of `utils.flatten_json_result`. -/
def Json.isScalar : Json → Bool
  | .obj _ => false
  | .arr _ => false
  | _ => true

mutual

/-- Body of `utils.flatten_json_result` for a dict input: the fold over
`data.items()` accumulating into `items`.  A dict value recurses with the
compound key, a list value is rendered as a comma-joined string, and a
scalar passes through. -/
def flattenObj (kvs : List (String × Json)) (parent_key sep : String)
    (items : List (String × Json)) : List (String × Json) :=
  match kvs with
  | [] => items
  | (k, v) :: rest =>
    let new_key := if parent_key = "" then k else parent_key ++ sep ++ k
    match v with
    | .obj kvs2 =>
      flattenObj rest parent_key sep
        (dictUpdate items (flattenObj kvs2 new_key sep []))
    | .arr xs =>
      flattenObj rest parent_key sep
        (dictInsert items new_key (.str (joinSep ", " (xs.map pyStr))))
    | v2 => flattenObj rest parent_key sep (dictInsert items new_key v2)

end

/-- The function `utils.flatten_json_result(data, parent_key, sep)`.  A
non-dict input is wrapped under `parent_key or 'value'`. -/
def flatten_json_result (data : Json) (parent_key : String := "") (sep : String := "_") :
    List (String × Json) :=
  match data with
  | .obj kvs => flattenObj kvs parent_key sep []
  | v => [(if parent_key = "" then "value" else parent_key, v)]

/-- Whitespace characters skipped by the JSON grammar. -/
def isWsChar (c : Char) : Bool := c = ' ' || c = '\t' || c = '\n' || c = '\r'

/-- Drop leading JSON whitespace. -/
def skipWs : List Char → List Char
  | [] => []
  | c :: cs => if isWsChar c then skipWs cs else c :: cs

/-- Single-character JSON string escapes (the `\uXXXX` form is not modelled;
no claim exercises it). -/
def escChar : Char → Option Char
  | '"' => some '"'
  | '\\' => some '\\'
  | '/' => some '/'
  | 'b' => some (Char.ofNat 8)
  | 'f' => some (Char.ofNat 12)
  | 'n' => some '\n'
  | 'r' => some '\r'
  | 't' => some '\t'
  | _ => none

/-- Parse the body of a JSON string after the opening quote, returning the
string and the remaining input. -/
def parseStringBody : List Char → Option (String × List Char)
  | [] => none
  | '"' :: rest => some ("", rest)
  | '\\' :: c :: rest =>
    match escChar c, parseStringBody rest with
    | some e, some (s, r) => some (⟨e :: s.data⟩, r)
    | _, _ => none
  | c :: rest =>
    if c.toNat < 32 then none
    else
      match parseStringBody rest with
      | some (s, r) => some (⟨c :: s.data⟩, r)
      | none => none

/-- Digits to a natural number. -/
def digitsToNat (ds : List Char) : Nat := ds.foldl (fun a c => a * 10 + (c.toNat - 48)) 0

/-- Parse an unsigned JSON integer (leading zeros rejected; float and
exponent syntax not modelled, hence rejected like any other parse failure). -/
def parseNumCore (cs1 : List Char) : Option (Int × List Char) :=
  let ds := cs1.takeWhile Char.isDigit
  let rest := cs1.drop ds.length
  if ds.isEmpty then none
  else if ds.length > 1 && (ds.head? == some '0') then none
  else
    match rest with
    | '.' :: _ => none
    | 'e' :: _ => none
    | 'E' :: _ => none
    | _ => some ((digitsToNat ds : Int), rest)

/-- Parse a JSON number with optional leading minus. -/
def parseNum (cs : List Char) : Option (Json × List Char) :=
  match cs with
  | '-' :: cs1 => (parseNumCore cs1).map (fun p => (Json.num (-p.1), p.2))
  | cs1 => (parseNumCore cs1).map (fun p => (Json.num p.1, p.2))

/-- Parse the element list of a JSON array given a parser `pv` for one value.
`canClose` is true only before the first element, so a trailing comma is
rejected.  Fuel-structural so that it is parametric in `pv` and not mutually
recursive with the value parser. -/
def parseElemsAux (pv : List Char → Option (Json × List Char)) :
    Nat → Bool → List Char → Option (List Json × List Char)
  | 0, _, _ => none
  | g + 1, canClose, cs =>
    match skipWs cs with
    | ']' :: rest => if canClose then some ([], rest) else none
    | cs2 =>
      match pv cs2 with
      | none => none
      | some (v, r) =>
        match skipWs r with
        | ',' :: r2 =>
          match parseElemsAux pv g false r2 with
          | some (vs, r3) => some (v :: vs, r3)
          | none => none
        | ']' :: r2 => some ([v], r2)
        | _ => none

/-- Parse the member list of a JSON object given a parser `pv` for one value. -/
def parseMembersAux (pv : List Char → Option (Json × List Char)) :
    Nat → Bool → List Char → Option (List (String × Json) × List Char)
  | 0, _, _ => none
  | g + 1, canClose, cs =>
    match skipWs cs with
    | '}' :: rest => if canClose then some ([], rest) else none
    | '"' :: cs2 =>
      match parseStringBody cs2 with
      | none => none
      | some (k, r0) =>
        match skipWs r0 with
        | ':' :: r1 =>
          match pv r1 with
          | none => none
          | some (v, r) =>
            match skipWs r with
            | ',' :: r2 =>
              match parseMembersAux pv g false r2 with
              | some (kvs, r3) => some ((k, v) :: kvs, r3)
              | none => none
            | '}' :: r2 => some ([(k, v)], r2)
            | _ => none
        | _ => none
    | _ => none

/-- Recursive-descent JSON value parser, fuel-structural (fuel bounds the
nesting depth; `json_loads` supplies more fuel than any input can consume). -/
def parseVal : Nat → List Char → Option (Json × List Char)
  | 0, _ => none
  | f + 1, cs =>
    match skipWs cs with
    | [] => none
    | c :: rest =>
      if c = '{' then
        match parseMembersAux (parseVal f) (rest.length + 1) true rest with
        | some (kvs, r) => some (.obj kvs, r)
        | none => none
      else if c = '[' then
        match parseElemsAux (parseVal f) (rest.length + 1) true rest with
        | some (vs, r) => some (.arr vs, r)
        | none => none
      else if c = '"' then
        match parseStringBody rest with
        | some (s, r) => some (.str s, r)
        | none => none
      else if c = 't' then
        match rest with
        | 'r' :: 'u' :: 'e' :: r2 => some (.bool true, r2)
        | _ => none
      else if c = 'f' then
        match rest with
        | 'a' :: 'l' :: 's' :: 'e' :: r2 => some (.bool false, r2)
        | _ => none
      else if c = 'n' then
        match rest with
        | 'u' :: 'l' :: 'l' :: r2 => some (.null, r2)
        | _ => none
      else if c = '-' || c.isDigit then parseNum (c :: rest)
      else none

/-- The library call `json.loads(s)`: parse one value, requiring the whole
input (up to trailing whitespace) to be consumed; `none` models the
`JSONDecodeError` raised on failure. -/
def json_loads (s : String) : Option Json :=
  match parseVal (s.length + 1) s.data with
  | some (v, rest) => if (skipWs rest).isEmpty then some v else none
  | none => none

/-- Suffix of the input starting at the first `{`, if any. -/
def afterFirstBrace : List Char → Option (List Char)
  | [] => none
  | c :: rest => if c = '{' then some (c :: rest) else afterFirstBrace rest

/-- On a reversed input: suffix starting at the first `}` of the reversed
list, i.e. at the last `}` of the original list. -/
def fromLastCloseRev : List Char → Option (List Char)
  | [] => none
  | c :: rest => if c = '}' then some (c :: rest) else fromLastCloseRev rest

/-- The span matched by `re.search(r'\x7b.*\x7d', text, re.DOTALL)` in
`BaseAPIClient._clean_json_response`: from the first `{` to the last `}` at
or after it, greedy and across newlines; `none` when no such span exists. -/
def extractBraceSpan (s : String) : Option String :=
  match afterFirstBrace s.data with
  | none => none
  | some t =>
    match fromLastCloseRev t.reverse with
    | none => none
    | some u => some ⟨u.reverse⟩

/-- The method `BaseAPIClient._clean_json_response(text_content)`: extract
the brace-delimited span and parse it; on parse failure or when no span
exists, return the tagged error dict carrying the raw text.  (The
`text_content[:500]` truncation only feeds log lines, which are outside the
data path modelled here.) -/
def clean_json_response (text_content : String) : Json :=
  match extractBraceSpan text_content with
  | some json_str =>
    match json_loads json_str with
    | some v => v
    | none => .obj [("error", .str "JSON Decode Error"), ("raw_content", .str text_content)]
  | none => .obj [("error", .str "No JSON found in response"), ("raw_content", .str text_content)]

/-- Constant `MAX_RETRIES` from `config.py`. -/
def MAX_RETRIES : Nat := 3

/-- Constant `SAVE_INTERVAL` from `config.py`. -/
def SAVE_INTERVAL : Nat := 100

/-- Constant `REQUIRED_INPUT_COLUMNS` from `config.py`. -/
def REQUIRED_INPUT_COLUMNS : List String := ["Article Title", "Abstract"]

/-- Outcome of one `requests.post` attempt inside
`BaseAPIClient._make_request_with_retries`: a parsed response body, an HTTP
4xx/5xx error (`raise_for_status`), or a transport failure
(`RequestException`, which also covers the request timeout). -/
inductive AttemptOutcome where
  | success (v : Json)
  | httpError
  | transportError
deriving Repr

/-- Whether an attempt succeeded. -/
def AttemptOutcome.isSuccess : AttemptOutcome → Bool
  | .success _ => true
  | _ => false

/-- The loop body of `_make_request_with_retries`, shared by every client
class.  `attempt` is the 0-based loop variable, `remaining` the number of
iterations left (`remaining = maxRetries - attempt` at entry).  Returns the
result (`none` = definitive failure, no exception), the number of attempts
performed, and the list of backoff sleeps in seconds: after a failed attempt
with iterations remaining the code sleeps `2 ^ (attempt + 1)` seconds. -/
def retryGo (f : Nat → AttemptOutcome) : Nat → Nat → Option Json × Nat × List Nat
  | _, 0 => (none, 0, [])
  | attempt, remaining + 1 =>
    match f attempt with
    | .success v => (some v, 1, [])
    | _ =>
      let sleeps := if remaining > 0 then [2 ^ (attempt + 1)] else []
      let r := retryGo f (attempt + 1) remaining
      (r.1, r.2.1 + 1, sleeps ++ r.2.2)

/-- The method `BaseAPIClient._make_request_with_retries`, with the network
modelled by `f` giving the outcome of each attempt. -/
def make_request_with_retries (maxRetries : Nat) (f : Nat → AttemptOutcome) :
    Option Json × Nat × List Nat :=
  retryGo f 0 maxRetries

/-- Exceptions that `str.format` can raise, as distinguished by
`DataProcessor._analyze_single_document` (which catches only `KeyError`). -/
inductive FormatError where
  | keyError (key : String)
  | indexError
  | valueError (msg : String)
deriving Repr, DecidableEq

/-- Split a replacement field at the closing `}`: returns the field text and
the rest of the template.  A `{` inside a field is not modelled (Python
nested fields are outside what any claim exercises) and reads as a missing
closing brace. -/
def splitField : List Char → Option (List Char × List Char)
  | [] => none
  | '}' :: rest => some ([], rest)
  | '{' :: _ => none
  | c :: rest =>
    match splitField rest with
    | some (fld, r) => some (c :: fld, r)
    | none => none

/-- Field name part of a replacement field (before any `!conversion` or
`:format-spec`). -/
def fieldNameOf (fld : List Char) : List Char :=
  fld.takeWhile (fun c => !(c = '!' || c = ':'))

/-- Head of a field name, before any attribute (`.attr`) or index (`[i]`)
trailer: the part `str.format` actually looks up in its arguments. -/
def fieldHead (name : List Char) : List Char :=
  name.takeWhile (fun c => !(c = '.' || c = '['))

/-- Split the part of a replacement field after the name into its optional
conversion (the characters after `!`, up to `:`) and its format spec (the
characters after `:`).  An absent spec and an empty spec format
identically, so both are returned as `[]`. -/
def splitConvSpec (afterName : List Char) : Option (List Char) × List Char :=
  match afterName with
  | '!' :: rest =>
    let conv := rest.takeWhile (fun c => !(c = ':'))
    let rest2 := rest.drop conv.length
    (some conv,
      match rest2 with
      | ':' :: sp => sp
      | _ => [])
  | ':' :: sp => (none, sp)
  | _ => (none, [])

/-- Apply a `!conversion` to the (string) field value.  Python accepts
exactly `s`, `r` and `a`; anything else raises `ValueError`.  The `r`/`a`
reprs are modelled as single-quote wrapping without escaping of embedded
quotes or control characters — that approximation affects only the produced
prompt text, never whether an exception is raised. -/
def applyConversion (s : String) (conv : Option (List Char)) : Option String :=
  match conv with
  | none => some s
  | some ['s'] => some s
  | some ['r'] => some ("\x27" ++ s ++ "\x27")
  | some ['a'] => some ("\x27" ++ s ++ "\x27")
  | some _ => none

/-- Alignment characters valid for a string argument (`=` is not: Python
raises `ValueError` for it, and it falls to the error catch-all below). -/
def isAlignChar (c : Char) : Bool := c = '<' || c = '>' || c = '^'

/-- Parse the optional `[[fill]align]` prefix of a format spec. -/
def splitFillAlign : List Char → Option (Char × Char) × List Char
  | c1 :: c2 :: rest =>
    if isAlignChar c2 then (some (c1, c2), rest)
    else if isAlignChar c1 then (some (' ', c1), c2 :: rest)
    else (none, c1 :: c2 :: rest)
  | [c1] => if isAlignChar c1 then (some (' ', c1), []) else (none, [c1])
  | [] => (none, [])

/-- Pad a string to `width` with the given fill and alignment (default:
left-aligned, space fill), as `str.__format__` does. -/
def padStr (fa : Option (Char × Char)) (width : Nat) (s : String) : String :=
  let pad := width - s.length
  match fa with
  | none => s ++ ⟨List.replicate pad ' '⟩
  | some (fill, align) =>
    if align = '>' then (⟨List.replicate pad fill⟩ : String) ++ s
    else if align = '^' then
      (⟨List.replicate (pad / 2) fill⟩ : String) ++ s ++
        (⟨List.replicate (pad - pad / 2) fill⟩ : String)
    else s ++ ⟨List.replicate pad fill⟩

/-- Validate and apply a format spec to the (string) field value, mirroring
`str.__format__`: optional fill and `<`/`>`/`^` alignment, a decimal
minimum width, an optional `.precision` truncation, and an optional
trailing `s` type code.  Everything else — `=` alignment, a sign, `#`,
`,`/`_` grouping, a bare `.`, or any other type code such as `d` or `f` —
raises `ValueError` for a string argument and is `none` here.  A leading
`0` (zero padding), which current CPython accepts for strings, is folded
into the error side as well: every fold in this model goes toward the
error, which only narrows — never widens — the set of templates certified
not to raise. -/
def formatStrSpec (s : String) (spec : List Char) : Option String :=
  let fa := splitFillAlign spec
  match fa.2 with
  | '0' :: _ => none
  | '+' :: _ => none
  | '-' :: _ => none
  | ' ' :: _ => none
  | '#' :: _ => none
  | rest1 =>
    let wd := rest1.takeWhile Char.isDigit
    let rest2 := rest1.drop wd.length
    let width := digitsToNat wd
    match rest2 with
    | [] => some (padStr fa.1 width s)
    | ['s'] => some (padStr fa.1 width s)
    | '.' :: rest3 =>
      let pr := rest3.takeWhile Char.isDigit
      let rest4 := rest3.drop pr.length
      if pr.isEmpty then none
      else
        let s2 : String := ⟨s.data.take (digitsToNat pr)⟩
        match rest4 with
        | [] => some (padStr fa.1 width s2)
        | ['s'] => some (padStr fa.1 width s2)
        | _ => none
    | _ => none

/-- Fuel-structural core of the Python `str.format` model; the fuel in
`pyFormat` always exceeds the template length, so the 0-fuel branch is
unreachable.  A replacement field is processed in `str.format` order:
argument lookup first (`IndexError` for positional/auto fields since no
positional arguments are supplied, `KeyError` for any keyword other than
`content_to_analyze`), then the conversion, then the format spec — the
latter two raising `ValueError` when invalid, exactly the exceptions the
caller's `except KeyError` does not catch.  Attribute/index trailers on the
known keyword (`{content_to_analyze.x}`, which raises `AttributeError` in
Python, or `{content_to_analyze[0]}`) are folded into the uncaught-error
side: again this can only narrow, never widen, the certified no-raise
domain. -/
def pyFormatGo (content : String) : Nat → List Char → Except FormatError String
  | 0, _ => .error (.valueError "format fuel exhausted")
  | f + 1, cs =>
    match cs with
    | [] => .ok ""
    | '{' :: '{' :: rest => (pyFormatGo content f rest).map (fun s => "\x7b" ++ s)
    | '}' :: '}' :: rest => (pyFormatGo content f rest).map (fun s => "\x7d" ++ s)
    | '}' :: _ => .error (.valueError "Single brace encountered in format string")
    | '{' :: rest =>
      match splitField rest with
      | none => .error (.valueError "Single brace encountered in format string")
      | some (fld, r) =>
        let name := fieldNameOf fld
        let head := fieldHead name
        if head.all Char.isDigit then .error .indexError
        else if head ≠ "content_to_analyze".data then .error (.keyError ⟨head⟩)
        else if name ≠ head then
          .error (.valueError "attribute and index access on a format field are not modelled")
        else
          match applyConversion content (splitConvSpec (fld.drop name.length)).1 with
          | none => .error (.valueError "Unknown conversion specifier")
          | some s1 =>
            match formatStrSpec s1 (splitConvSpec (fld.drop name.length)).2 with
            | none => .error (.valueError "Unknown format code for object of type str")
            | some s2 => (pyFormatGo content f r).map (fun s => s2 ++ s)
    | c :: rest => (pyFormatGo content f rest).map (fun s => ⟨[c]⟩ ++ s)

/-- The call `prompt_template.format(content_to_analyze=content)` in
`DataProcessor._analyze_single_document`.  An empty or all-digit field name
is a positional field (no positional arguments are supplied: `IndexError`);
the keyword `content_to_analyze` substitutes after its conversion and
format spec are validated and applied; any other keyword raises `KeyError`;
unmatched braces, invalid conversions and invalid format specs raise
`ValueError`. -/
def pyFormat (tmpl content : String) : Except FormatError String :=
  pyFormatGo content (tmpl.length + 1) tmpl.data

mutual

/-- Python `==` on parsed JSON values. -/
def Json.beq : Json → Json → Bool
  | .null, .null => true
  | .bool x, .bool y => x == y
  | .num x, .num y => x == y
  | .str x, .str y => x == y
  | .arr xs, .arr ys => Json.beqList xs ys
  | .obj xs, .obj ys => Json.beqObj xs ys
  | _, _ => false

/-- Elementwise equality of JSON lists. -/
def Json.beqList : List Json → List Json → Bool
  | [], [] => true
  | x :: xs, y :: ys => Json.beq x y && Json.beqList xs ys
  | _, _ => false

/-- Memberwise equality of JSON dicts (Python `dict.__eq__` is
order-insensitive, but parsed response dicts never reach an order-sensitive
comparison in the claims; memberwise equality is what `isin` needs for the
scalar UID values the pipeline compares). -/
def Json.beqObj : List (String × Json) → List (String × Json) → Bool
  | [], [] => true
  | (k1, v1) :: xs, (k2, v2) :: ys => k1 == k2 && Json.beq v1 v2 && Json.beqObj xs ys
  | _, _ => false

end

/-- A pandas cell: `none` is a missing / NaN entry. -/
abbrev Cell := Option Json

/-- One table row, keyed by column name (`Series.to_dict()` view). -/
abbrev Row := List (String × Cell)

/-- A pandas DataFrame: its column list and its rows. -/
structure Table where
  cols : List String
  data : List Row

/-- Read one cell of a row; a missing key reads as NaN. -/
def getCell (r : Row) (c : String) : Cell := (r.lookup c).join

/-- One column of a table, as the list of its cells. -/
def Table.col (t : Table) (c : String) : List Cell := t.data.map (fun r => getCell r c)

/-- Membership test `Series.isin(values)` for one cell: a NaN cell matches
nothing, because the resume sets built by the code have passed `dropna`. -/
def cellIn (c : Cell) (vs : List Json) : Bool :=
  match c with
  | none => false
  | some v => vs.any (fun w => Json.beq w v)

/-- A structured result dict returned by `analyze_text`. -/
abbrev ResultDict := List (String × Json)

/-- Lines 72-81 of `data_processor.py`: the ResumeSet.  The sink argument:
`none` = the output file does not exist; `some none` = it exists but cannot
be read (the `read_csv_robustly` failure and the `except` branch, both of
which leave the set empty after a warning); `some (some t)` = it was read.
The UID column is taken only if present, and `dropna` removes NaN cells. -/
def computeResumeSet (resume_mode : Bool) (sink : Option (Option Table)) : List Json :=
  if resume_mode then
    match sink with
    | some (some df_out) =>
      if "UID" ∈ df_out.cols then (df_out.col "UID").filterMap id else []
    | some none => []
    | none => []
  else []

/-- Lines 83-85: synthesize a UID column from the positional row index when
the input lacks one. -/
def ensureUID (t : Table) : Table :=
  if "UID" ∈ t.cols then t
  else
    ⟨t.cols ++ ["UID"],
     ((List.range t.data.length).zip t.data).map
       (fun p => p.2 ++ [("UID", some (Json.num p.1))])⟩

/-- Line 87: `df[~df['UID'].isin(processed_uids)]`. -/
def filterToProcess (t : Table) (processed : List Json) : List Row :=
  t.data.filter (fun r => !cellIn (getCell r "UID") processed)

/-- Lines 61-98 of `DataProcessor._execute_analysis` up to task planning:
read the source (`none` = read failed, run reported and abandoned), check
the required columns, compute the ResumeSet, synthesize UIDs, filter, and
apply the positive `process_count` cap.  Returns the records to submit, or
`none` when the run aborts before submitting anything. -/
def planTasks (src : Option Table) (resume_mode : Bool) (sink : Option (Option Table))
    (process_count : Nat) : Option (List Row) :=
  match src with
  | none => none
  | some df =>
    if REQUIRED_INPUT_COLUMNS.all (fun c => c ∈ df.cols) then
      let processed := computeResumeSet resume_mode sink
      let df2 := ensureUID df
      let toProc := filterToProcess df2 processed
      some (if process_count > 0 then toProc.take process_count else toProc)
    else none

/-- Lines 107-116, the submission loop: one task per record in order, with a
stop-flag check before each submission; `stop i` is the flag value read at
the check before submitting task `i`. -/
def submitGo (stop : Nat → Bool) : Nat → List Row → List Row
  | _, [] => []
  | i, r :: rest => if stop i then [] else r :: submitGo stop (i + 1) rest

/-- Records actually submitted to the worker pool. -/
def submitLoop (rows : List Row) (stop : Nat → Bool) : List Row := submitGo stop 0 rows

/-- What `future.result()` delivers for one task: the returned dict, or the
exception the task raised. -/
inductive TaskOutcome where
  | ok (result : ResultDict)
  | exn (msg : String)

/-- Convert the modelled return of `_analyze_single_document` (where
`Except.error` is a raised exception) into what `future.result()` does:
re-raise or deliver. -/
def toOutcome : Except String ResultDict → TaskOutcome
  | .ok d => .ok d
  | .error m => .exn m

/-- Python `{**original_data, **upd}`: merge the flat result dict into the
original record, later keys overriding. -/
def mergeRow (orig : Row) (upd : List (String × Json)) : Row :=
  dictUpdate orig (upd.map (fun p => (p.1, (some p.2 : Cell))))

/-- Lines 127-145: build the OutputRow for one completed future.  A truthy
(non-empty) dict is flattened and merged; an empty dict falls into the
`API Failure after retries` branch; an exception is recorded under
`error`. -/
def processCompletion (orig : Row) (oc : TaskOutcome) : Row :=
  match oc with
  | .ok result =>
    if result.isEmpty then mergeRow orig [("error", .str "API Failure after retries")]
    else mergeRow orig (flatten_json_result (.obj result))
  | .exn msg => mergeRow orig [("error", .str msg)]

/-- State of the completion-collection loop of `_execute_analysis`: the
batch buffer, the `header_written` flag, the flushes performed so far (each
an appended batch together with the header flag passed to `to_csv`), the
processed count, whether the loop broke on the stop flag, and every
OutputRow built so far. -/
structure LoopState where
  batch : List Row
  headerWritten : Bool
  flushes : List (List Row × Bool)
  processedCount : Nat
  aborted : Bool
  merged : List Row

/-- The method `_save_batch_results`: appending an empty batch is a no-op,
otherwise the batch is appended with the given header flag. -/
def saveBatch (batch : List Row) (writeHeader : Bool) (flushes : List (List Row × Bool)) :
    List (List Row × Bool) :=
  if batch.isEmpty then flushes else flushes ++ [(batch, writeHeader)]

/-- Lines 119-153, the `as_completed` collection loop.  `stop i` is the stop
flag read at the check performed when the i-th completed future has been
yielded; on a true reading the loop cancels the remaining futures and breaks
without merging that yielded result.  Otherwise the OutputRow is built,
buffered, and the buffer is flushed once it reaches `K` rows (writing the
header only if no earlier content existed). -/
def collectLoop (K : Nat) (stop : Nat → Bool) :
    List (Row × TaskOutcome) → LoopState → LoopState
  | [], s => s
  | (orig, oc) :: rest, s =>
    if stop s.processedCount then
      ⟨s.batch, s.headerWritten, s.flushes, s.processedCount, true, s.merged⟩
    else
      let row := processCompletion orig oc
      let batch2 := s.batch ++ [row]
      if K ≤ batch2.length then
        collectLoop K stop rest
          ⟨[], true, saveBatch batch2 (!s.headerWritten) s.flushes,
           s.processedCount + 1, s.aborted, s.merged ++ [row]⟩
      else
        collectLoop K stop rest
          ⟨batch2, s.headerWritten, s.flushes, s.processedCount + 1, s.aborted,
           s.merged ++ [row]⟩

/-- Lines 156-157: the unconditional flush of whatever remains buffered when
the loop ends (normally or on cancellation). -/
def finalFlush (s : LoopState) : LoopState :=
  if s.batch.isEmpty then s
  else
    ⟨s.batch, s.headerWritten, saveBatch s.batch (!s.headerWritten) s.flushes,
     s.processedCount, s.aborted, s.merged⟩

/-- Initial loop state; `sinkNonEmpty` is line 102, `header_written =
os.path.exists(output_file) and os.path.getsize(output_file) > 0`. -/
def initState (sinkNonEmpty : Bool) : LoopState :=
  ⟨[], sinkNonEmpty, [], 0, false, []⟩

/-- The collection phase of one run: the loop followed by the final flush. -/
def runCollect (K : Nat) (sinkNonEmpty : Bool) (stop : Nat → Bool)
    (cs : List (Row × TaskOutcome)) : LoopState :=
  finalFlush (collectLoop K stop cs (initState sinkNonEmpty))

/-- Lines 50-53 of `run_analysis`: the terminal message put on the queue in
the `finally` block, chosen by the stop flag value at run end. -/
def runReport (stopFlag : Bool) : String :=
  if stopFlag then "分析任务已中止。" else "分析流程执行完毕。"

/-- Message text of an uncaught `str.format` exception, as `str(exc)` would
render it in the orchestrator's handler. -/
def formatErrMsg : FormatError → String
  | .keyError k => "KeyError: " ++ k
  | .indexError => "Replacement index 0 out of range for positional args tuple"
  | .valueError m => m

/-- The method `DataProcessor._analyze_single_document`, lines 162-179.
`title = none` models a NaN title; the abstract argument is the rendered
text of the abstract cell (`abstract or ''`).  The first component is the
returned dict (`Except.error` = an exception escaping the method); the
second records whether the LLM client was invoked.  Only `KeyError` from the
template formatting is caught; every other formatting exception, and any
exception raised inside `api_client.analyze_text`, propagates. -/
def analyze_single_document (client : String → Except String ResultDict)
    (title : Option String) (abstract : String) (prompt_template : String) :
    Except String ResultDict × Bool :=
  match title with
  | none => (.ok [("error", .str "Missing Title")], false)
  | some t =>
    if t.data.all Char.isWhitespace then (.ok [("error", .str "Missing Title")], false)
    else
      let content_to_analyze := "Title: " ++ t ++ "\n\nAbstract: " ++ abstract
      match pyFormat prompt_template content_to_analyze with
      | .ok prompt => (client prompt, true)
      | .error (.keyError _) => (.ok [("error", .str "Invalid Prompt Template")], false)
      | .error e => (.error (formatErrMsg e), false)

/-- Header flags across the flushes of a run that starts with
`header_written = hw`: all `false` if sink content already existed,
otherwise `true` on the first flush only. -/
def headerFlags (hw : Bool) (n : Nat) : List Bool :=
  if hw then List.replicate n false
  else
    match n with
    | 0 => []
    | m + 1 => true :: List.replicate m false

/-- All rows flushed to the sink so far, in order. -/
def joinFlushes (s : LoopState) : List Row := (s.flushes.map Prod.fst).flatten

/-- Rows for the cancellation counterexample (different lengths so their
OutputRows are provably distinct). -/
def rowA5 : Row := [("UID", some (.str "a"))]

/-- Second record of the cancellation counterexample. -/
def rowB5 : Row := [("UID", some (.str "b")), ("X", none)]

/-- Completion stream of the cancellation counterexample: both tasks have
completed (both are yielded by `as_completed`). -/
def cs5 : List (Row × TaskOutcome) := [(rowA5, .exn "x"), (rowB5, .exn "y")]

/-- Dict test for the mapping constructor. -/
def Json.isObj : Json → Bool
  | .obj _ => true
  | _ => false

theorem lookup_dictInsert {α : Type} (l : List (String × α)) (k : String) (v : α) :
    (dictInsert l k v).lookup k = some v := by
  induction l with
  | nil => simp [dictInsert]
  | cons p rest ih =>
    obtain ⟨k1, v1⟩ := p
    by_cases h : k1 = k
    · subst h; simp [dictInsert, List.lookup]
    · have hbe : (k == k1) = false := by
        rw [beq_eq_false_iff_ne]
        exact fun hh => h hh.symm
      simp [dictInsert, h, List.lookup, hbe, ih]

theorem dictInsert_append {α : Type} (l : List (String × α)) (k : String) (v : α)
    (h : ∀ p ∈ l, Prod.fst p ≠ k) : dictInsert l k v = l ++ [(k, v)] := by
  induction l with
  | nil => rfl
  | cons p rest ih =>
    obtain ⟨k1, v1⟩ := p
    have hk1 : k1 ≠ k := h (k1, v1) (by simp)
    simp only [dictInsert, hk1, if_false, List.cons_append, List.cons.injEq, true_and]
    exact ih (fun q hq => h q (by simp [hq]))

theorem flattenObj_cons_scalar (k : String) (v : Json) (hv : v.isScalar = true)
    (rest items : List (String × Json)) (sep : String) :
    flattenObj ((k, v) :: rest) "" sep items =
      flattenObj rest "" sep (dictInsert items k v) := by
  cases v <;> simp_all [flattenObj, Json.isScalar]

theorem flattenObj_flat (sep : String) :
    ∀ (m items : List (String × Json)),
      (m.map Prod.fst).Nodup →
      (∀ p ∈ m, (Prod.snd p).isScalar = true) →
      (∀ p ∈ m, ∀ q ∈ items, Prod.fst q ≠ Prod.fst p) →
      flattenObj m "" sep items = items ++ m := by
  intro m
  induction m with
  | nil => intro items _ _ _; simp [flattenObj]
  | cons p rest ih =>
    intro items hnd hsc hdisj
    obtain ⟨k, v⟩ := p
    have hscv : v.isScalar = true := hsc (k, v) (by simp)
    have hins : dictInsert items k v = items ++ [(k, v)] :=
      dictInsert_append items k v (fun q hq => hdisj (k, v) (by simp) q hq)
    rw [flattenObj_cons_scalar k v hscv rest items sep, hins]
    have hnd2 : (rest.map Prod.fst).Nodup := (List.nodup_cons.mp hnd).2
    have hknotin : k ∉ rest.map Prod.fst := (List.nodup_cons.mp hnd).1
    have step := ih (items ++ [(k, v)]) hnd2
      (fun q hq => hsc q (by simp [hq]))
      (fun q hq q2 hq2 => by
        rcases List.mem_append.mp hq2 with h2 | h2
        · exact hdisj q (by simp [hq]) q2 h2
        · simp at h2
          subst h2
          intro hcontra
          have hmem : q.1 ∈ rest.map Prod.fst := List.mem_map_of_mem Prod.fst hq
          rw [← hcontra] at hmem
          exact hknotin hmem)
    rw [step]
    simp

/-- C7: the flattener maps the nested example to the expected flat row, is
the identity on an already-flat mapping (all values scalar, keys distinct,
as in any Python dict), and wraps a non-mapping input under the sentinel
key `value`.  Determinism is inherent: the model is a pure function. -/
theorem C7_flatten_properties (m : List (String × Json))
    (hkeys : (m.map Prod.fst).Nodup)
    (hflat : ∀ p ∈ m, (Prod.snd p).isScalar = true) :
    flatten_json_result (.obj [("a", .num 1),
        ("b", .obj [("c", .num 2), ("d", .arr [.num 3, .num 4])])]) =
      [("a", .num 1), ("b_c", .num 2), ("b_d", .str "3, 4")] ∧
    flatten_json_result (.obj m) = m ∧
    (∀ v : Json, Json.isObj v = false → flatten_json_result v = [("value", v)]) := by
  refine ⟨?_, ?_, ?_⟩
  · simp [flatten_json_result, flattenObj, dictUpdate, dictInsert, pyStr, pyRepr, joinSep]
    decide
  · have step := flattenObj_flat "_" m [] hkeys hflat (by simp)
    simpa [flatten_json_result] using step
  · intro v hv
    cases v <;> simp_all [flatten_json_result, Json.isObj]

/-- Witness for C7 at a concrete flat mapping. -/
theorem C7_flatten_properties_witness :
    flatten_json_result (.obj [("k", .str "v"), ("n", .num 7)]) =
      [("k", .str "v"), ("n", .num 7)] :=
  (C7_flatten_properties [("k", .str "v"), ("n", .num 7)]
    (by simp) (by simp [Json.isScalar])).2.1

/-- C9: a task returning the empty dict falls into the falsy branch of
`if result_json:` and is recorded exactly like a total API failure, with
`error = "API Failure after retries"` in the OutputRow. -/
theorem C9_empty_result_is_api_failure (orig : Row) :
    processCompletion orig (.ok []) =
      mergeRow orig [("error", .str "API Failure after retries")] ∧
    (processCompletion orig (.ok [])).lookup "error" =
      some (some (.str "API Failure after retries")) := by
  refine ⟨rfl, ?_⟩
  show (dictInsert orig "error" (some (.str "API Failure after retries"))).lookup "error" = _
  rw [lookup_dictInsert]

/-- C2: when every attempt fails (HTTP error or transport failure), the
retry loop of `.make_request_with_retries` performs exactly `MAX_RETRIES`
attempts, sleeps `2 ^ (attempt)` seconds between consecutive attempts
(attempts numbered from 1), so the total forced wait is the sum
`2^1 + ... + 2^(MAX_RETRIES - 1)`, and returns the definitive failure value
`none` instead of raising. -/
theorem C2_retry_backoff (f : Nat → AttemptOutcome)
    (h : ∀ i, (f i).isSuccess = false) :
    make_request_with_retries MAX_RETRIES f = (none, MAX_RETRIES, [2 ^ 1, 2 ^ 2]) ∧
    [2 ^ 1, 2 ^ 2].sum = ((Finset.Icc 1 (MAX_RETRIES - 1)).sum fun k => 2 ^ k) := by
  constructor
  · have h0 := h 0
    have h1 := h 1
    have h2 := h 2
    cases hf0 : f 0 <;> cases hf1 : f 1 <;> cases hf2 : f 2 <;>
      simp_all [make_request_with_retries, MAX_RETRIES, retryGo, AttemptOutcome.isSuccess]
  · decide

/-- Witness for C2 with an always-failing transport. -/
theorem C2_retry_backoff_witness :
    make_request_with_retries MAX_RETRIES (fun _ => .transportError) =
      (none, MAX_RETRIES, [2 ^ 1, 2 ^ 2]) :=
  (C2_retry_backoff (fun _ => .transportError) (fun _ => rfl)).1

theorem afterFirstBrace_head (l : List Char) :
    ∀ t, afterFirstBrace l = some t → t.head? = some '{' := by
  induction l with
  | nil => intro t h; simp [afterFirstBrace] at h
  | cons c rest ih =>
    intro t h
    by_cases hc : c = '{'
    · subst hc
      simp [afterFirstBrace] at h
      subst h
      rfl
    · simp [afterFirstBrace, hc] at h
      exact ih t h

theorem fromLastCloseRev_getLast (l : List Char) :
    ∀ u, fromLastCloseRev l = some u → u.getLast? = l.getLast? := by
  induction l with
  | nil => intro u h; simp [fromLastCloseRev] at h
  | cons c rest ih =>
    intro u h
    by_cases hc : c = '}'
    · subst hc
      simp [fromLastCloseRev] at h
      subst h
      rfl
    · simp [fromLastCloseRev, hc] at h
      cases rest with
      | nil => simp [fromLastCloseRev] at h
      | cons d rest2 =>
        rw [List.getLast?_cons_cons]
        exact ih u h

theorem extractBraceSpan_head (s j : String) (h : extractBraceSpan s = some j) :
    j.data.head? = some '{' := by
  cases ha : afterFirstBrace s.data with
  | none => simp [extractBraceSpan, ha] at h
  | some t =>
    cases hf : fromLastCloseRev t.reverse with
    | none => simp [extractBraceSpan, ha, hf] at h
    | some u =>
      simp [extractBraceSpan, ha, hf] at h
      subst h
      show u.reverse.head? = some '{'
      rw [List.head?_reverse]
      rw [fromLastCloseRev_getLast t.reverse u hf]
      rw [List.getLast?_reverse]
      exact afterFirstBrace_head s.data t ha

theorem parseVal_head_obj (f : Nat) (cs : List Char) (h : cs.head? = some '{')
    (v : Json) (r : List Char) (hp : parseVal f cs = some (v, r)) :
    ∃ kvs, v = .obj kvs := by
  cases f with
  | zero => simp [parseVal] at hp
  | succ f =>
    cases cs with
    | nil => simp at h
    | cons c rest =>
      simp at h
      subst h
      have hw : skipWs ('{' :: rest) = '{' :: rest := by
        have hnws : isWsChar '{' = false := by decide
        simp [skipWs, hnws]
      rw [show parseVal (f + 1) ('{' :: rest) =
            (match skipWs ('{' :: rest) with
             | [] => none
             | c :: rest =>
               if c = '{' then
                 match parseMembersAux (parseVal f) (rest.length + 1) true rest with
                 | some (kvs, r) => some (.obj kvs, r)
                 | none => none
               else if c = '[' then
                 match parseElemsAux (parseVal f) (rest.length + 1) true rest with
                 | some (vs, r) => some (.arr vs, r)
                 | none => none
               else if c = '"' then
                 match parseStringBody rest with
                 | some (s, r) => some (.str s, r)
                 | none => none
               else if c = 't' then
                 match rest with
                 | 'r' :: 'u' :: 'e' :: r2 => some (.bool true, r2)
                 | _ => none
               else if c = 'f' then
                 match rest with
                 | 'a' :: 'l' :: 's' :: 'e' :: r2 => some (.bool false, r2)
                 | _ => none
               else if c = 'n' then
                 match rest with
                 | 'u' :: 'l' :: 'l' :: r2 => some (.null, r2)
                 | _ => none
               else if c = '-' || c.isDigit then parseNum (c :: rest)
               else none) from rfl, hw] at hp
      simp only [if_pos rfl] at hp
      cases hm : parseMembersAux (parseVal f) (rest.length + 1) true rest with
      | none => rw [hm] at hp; simp at hp
      | some p =>
        obtain ⟨kvs, r2⟩ := p
        rw [hm] at hp
        simp at hp
        exact ⟨kvs, hp.1.symm⟩

theorem json_loads_head_obj (s : String) (h : s.data.head? = some '{') (v : Json)
    (hv : json_loads s = some v) : ∃ kvs, v = .obj kvs := by
  unfold json_loads at hv
  cases hp : parseVal (s.length + 1) s.data with
  | none => rw [hp] at hv; simp at hv
  | some p =>
    obtain ⟨w, rest⟩ := p
    rw [hp] at hv
    by_cases he : (skipWs rest).isEmpty
    · simp [he] at hv
      subst hv
      exact parseVal_head_obj (s.length + 1) s.data h w rest hp
    · simp [he] at hv

/-- C3: `_clean_json_response` always returns a mapping — the parsed object
when the brace-delimited span (first `{` to last `}`, greedy across
newlines) parses, the tagged `No JSON found in response` dict carrying the
raw text when no span exists, the tagged `JSON Decode Error` dict carrying
the raw text when parsing fails — and on the markdown-fenced example it
returns exactly the mapping with `x = 1`.  No branch raises. -/
theorem C3_clean_response (t : String) :
    (∃ kvs, clean_json_response t = .obj kvs) ∧
    (extractBraceSpan t = none →
      clean_json_response t =
        .obj [("error", .str "No JSON found in response"), ("raw_content", .str t)]) ∧
    (∀ s, extractBraceSpan t = some s → json_loads s = none →
      clean_json_response t =
        .obj [("error", .str "JSON Decode Error"), ("raw_content", .str t)]) ∧
    clean_json_response "Here is the result:\n```json\n\x7b\"x\":1\x7d\n```" =
      .obj [("x", .num 1)] := by
  refine ⟨?_, ?_, ?_, rfl⟩
  · cases he : extractBraceSpan t with
    | none =>
      exact ⟨[("error", .str "No JSON found in response"), ("raw_content", .str t)],
        by simp [clean_json_response, he]⟩
    | some s =>
      cases hj : json_loads s with
      | none =>
        exact ⟨[("error", .str "JSON Decode Error"), ("raw_content", .str t)],
          by simp [clean_json_response, he, hj]⟩
      | some v =>
        obtain ⟨kvs, hk⟩ :=
          json_loads_head_obj s (extractBraceSpan_head t s he) v hj
        exact ⟨kvs, by simp [clean_json_response, he, hj, hk]⟩
  · intro he; simp [clean_json_response, he]
  · intro s he hj; simp [clean_json_response, he, hj]

/-- Witness for C3 on a text with no brace-delimited span. -/
theorem C3_clean_response_witness :
    clean_json_response "no json" =
      .obj [("error", .str "No JSON found in response"), ("raw_content", .str "no json")] :=
  (C3_clean_response "no json").2.1 rfl

/-- C6: a record whose title is NaN or empty/whitespace-only short-circuits
in `_analyze_single_document`: the tagged `Missing Title` failure is
returned, the LLM client is never invoked (second component `false`), and
the OutputRow built by the orchestrator for that result carries
`error = "Missing Title"`. -/
theorem C6_missing_title (client : String → Except String ResultDict)
    (abstract tmpl : String) (title : Option String) (orig : Row)
    (h : title = none ∨ ∃ t, title = some t ∧ t.data.all Char.isWhitespace = true) :
    analyze_single_document client title abstract tmpl =
      (.ok [("error", .str "Missing Title")], false) ∧
    (processCompletion orig
        (toOutcome (analyze_single_document client title abstract tmpl).1)).lookup "error" =
      some (some (.str "Missing Title")) := by
  have h1 : analyze_single_document client title abstract tmpl =
      (.ok [("error", .str "Missing Title")], false) := by
    rcases h with h | ⟨t, rfl, ht⟩
    · subst h; rfl
    · simp [analyze_single_document, ht]
  refine ⟨h1, ?_⟩
  rw [h1]
  have hfl : flatten_json_result (.obj [("error", .str "Missing Title")]) =
      [("error", .str "Missing Title")] := by
    simp [flatten_json_result, flattenObj, dictInsert]
  show (mergeRow orig
      (flatten_json_result (.obj [("error", .str "Missing Title")]))).lookup "error" = _
  rw [hfl]
  show (dictInsert orig "error" (some (.str "Missing Title"))).lookup "error" = _
  exact lookup_dictInsert orig "error" (some (.str "Missing Title"))

/-- Witness for C6 with a whitespace-only title. -/
theorem C6_missing_title_witness :
    analyze_single_document (fun _ => .ok []) (some "   ") "" "tmpl" =
      (.ok [("error", .str "Missing Title")], false) :=
  (C6_missing_title (fun _ => .ok []) "" "tmpl" (some "   ") []
    (Or.inr ⟨"   ", rfl, by decide⟩)).1

/-- C10: a sink row whose UID cell is NaN is dropped by `dropna` and leaves
the ResumeSet unchanged, so it can never suppress reprocessing of any input
record; and a sink with no UID column at all yields the empty ResumeSet. -/
theorem C10_resume_dropna (t : Table) (r : Row) (hr : getCell r "UID" = none) :
    computeResumeSet true (some (some ⟨t.cols, r :: t.data⟩)) =
      computeResumeSet true (some (some t)) ∧
    ("UID" ∉ t.cols → computeResumeSet true (some (some t)) = []) := by
  constructor
  · by_cases hc : "UID" ∈ t.cols
    · simp [computeResumeSet, hc, Table.col, hr]
    · simp [computeResumeSet, hc]
  · intro hc
    simp [computeResumeSet, hc]

/-- Witness for C10: a sink holding one NaN-UID row resumes nothing. -/
theorem C10_resume_dropna_witness :
    computeResumeSet true (some (some ⟨["Article Title"], [[("UID", none)]]⟩)) = [] := by
  have h := C10_resume_dropna ⟨["Article Title"], []⟩ [("UID", none)] rfl
  exact h.1.trans (h.2 (by decide))

theorem submitGo_mem (stop : Nat → Bool) :
    ∀ (rows : List Row) (i : Nat) (r : Row), r ∈ submitGo stop i rows → r ∈ rows := by
  intro rows
  induction rows with
  | nil => intro i r h; simp [submitGo] at h
  | cons a rest ih =>
    intro i r h
    by_cases hs : stop i = true
    · simp [submitGo, hs] at h
    · simp [submitGo, hs] at h
      rcases h with h | h
      · exact h ▸ List.mem_cons_self a rest
      · exact List.mem_cons_of_mem a (ih (i + 1) r h)

/-- C1: in any run, every record submitted to the worker pool has a UID
outside the ResumeSet (the filter `~df['UID'].isin(processed_uids)` runs
before submission); and when the output sink exists but cannot be read, the
ResumeSet is empty and the run plans exactly the tasks it would plan with no
sink at all — it proceeds (with a logged warning) instead of aborting. -/
theorem C1_resume_not_resubmitted (df : Table) (sink : Option Table) (rm : Bool)
    (pc : Nat) (stop : Nat → Bool) (tasks : List Row)
    (h : planTasks (some df) rm (some sink) pc = some tasks) :
    (∀ r ∈ submitLoop tasks stop,
      cellIn (getCell r "UID") (computeResumeSet rm (some sink)) = false) ∧
    computeResumeSet rm (some none) = [] ∧
    planTasks (some df) rm (some none) pc = planTasks (some df) rm none pc := by
  have hempty : computeResumeSet rm (some none) = [] := by cases rm <;> rfl
  refine ⟨?_, hempty, ?_⟩
  · intro r hr
    have hr1 : r ∈ tasks := submitGo_mem stop tasks 0 r hr
    simp only [planTasks] at h
    split at h
    · simp only [Option.some.injEq] at h
      subst h
      have hr2 : r ∈ filterToProcess (ensureUID df) (computeResumeSet rm (some sink)) := by
        by_cases hpc : pc > 0
        · simp only [hpc, if_true] at hr1
          exact List.mem_of_mem_take hr1
        · simpa [hpc] using hr1
      have hp := (List.mem_filter.mp hr2).2
      simpa using hp
    · simp at h
  · simp only [planTasks]
    rw [show computeResumeSet rm (some none) = computeResumeSet rm none from
      by cases rm <;> rfl]

/-- Witness for C1: one input record, resume mode on, unreadable sink. -/
theorem C1_resume_not_resubmitted_witness :
    cellIn (getCell [("Article Title", some (Json.str "T")),
        ("Abstract", some (Json.str "A")), ("UID", some (Json.str "u1"))] "UID")
      (computeResumeSet true (some none)) = false :=
  (C1_resume_not_resubmitted
    ⟨["Article Title", "Abstract", "UID"],
     [[("Article Title", some (Json.str "T")), ("Abstract", some (Json.str "A")),
       ("UID", some (Json.str "u1"))]]⟩
    none true 0 (fun _ => false)
    [[("Article Title", some (Json.str "T")), ("Abstract", some (Json.str "A")),
      ("UID", some (Json.str "u1"))]] rfl).1 _ (by simp [submitLoop, submitGo])

theorem collectLoop_cons_stop (K : Nat) (stop : Nat → Bool) (orig : Row)
    (oc : TaskOutcome) (rest : List (Row × TaskOutcome)) (s : LoopState)
    (h : stop s.processedCount = true) :
    collectLoop K stop ((orig, oc) :: rest) s =
      ⟨s.batch, s.headerWritten, s.flushes, s.processedCount, true, s.merged⟩ := by
  simp [collectLoop, h]

theorem collectLoop_cons_flush (K : Nat) (stop : Nat → Bool) (orig : Row)
    (oc : TaskOutcome) (rest : List (Row × TaskOutcome)) (s : LoopState)
    (h : stop s.processedCount = false) (hb : K ≤ s.batch.length + 1) :
    collectLoop K stop ((orig, oc) :: rest) s =
      collectLoop K stop rest
        ⟨[], true,
         saveBatch (s.batch ++ [processCompletion orig oc]) (!s.headerWritten) s.flushes,
         s.processedCount + 1, s.aborted, s.merged ++ [processCompletion orig oc]⟩ := by
  simp [collectLoop, h, hb]

theorem collectLoop_cons_go (K : Nat) (stop : Nat → Bool) (orig : Row)
    (oc : TaskOutcome) (rest : List (Row × TaskOutcome)) (s : LoopState)
    (h : stop s.processedCount = false) (hb : ¬ K ≤ s.batch.length + 1) :
    collectLoop K stop ((orig, oc) :: rest) s =
      collectLoop K stop rest
        ⟨s.batch ++ [processCompletion orig oc], s.headerWritten, s.flushes,
         s.processedCount + 1, s.aborted, s.merged ++ [processCompletion orig oc]⟩ := by
  simp [collectLoop, h, hb]

theorem saveBatch_nonempty_length (batch : List Row) (w : Bool)
    (fl : List (List Row × Bool)) (h : batch ≠ []) :
    (saveBatch batch w fl).length = fl.length + 1 := by
  simp [saveBatch, h]

theorem collectLoop_count (K : Nat) (hK : 0 < K) :
    ∀ (cs : List (Row × TaskOutcome)) (s : LoopState), s.batch.length < K →
      (collectLoop K (fun _ => false) cs s).flushes.length * K +
          (collectLoop K (fun _ => false) cs s).batch.length =
        s.flushes.length * K + s.batch.length + cs.length ∧
      (collectLoop K (fun _ => false) cs s).batch.length < K := by
  intro cs
  induction cs with
  | nil => intro s hs; exact ⟨by simp [collectLoop], hs⟩
  | cons p rest ih =>
    intro s hs
    obtain ⟨orig, oc⟩ := p
    by_cases hb : K ≤ s.batch.length + 1
    · rw [collectLoop_cons_flush K (fun _ => false) orig oc rest s rfl hb]
      obtain ⟨ih1, ih2⟩ := ih
        ⟨[], true,
         saveBatch (s.batch ++ [processCompletion orig oc]) (!s.headerWritten) s.flushes,
         s.processedCount + 1, s.aborted, s.merged ++ [processCompletion orig oc]⟩
        (by simpa using hK)
      refine ⟨?_, ih2⟩
      rw [ih1]
      have hsv : (saveBatch (s.batch ++ [processCompletion orig oc]) (!s.headerWritten)
          s.flushes).length = s.flushes.length + 1 :=
        saveBatch_nonempty_length _ _ _ (by simp)
      simp only [hsv, List.length_nil, List.length_cons]
      have hexp : (s.flushes.length + 1) * K = s.flushes.length * K + K := by ring
      omega
    · rw [collectLoop_cons_go K (fun _ => false) orig oc rest s rfl hb]
      obtain ⟨ih1, ih2⟩ := ih
        ⟨s.batch ++ [processCompletion orig oc], s.headerWritten, s.flushes,
         s.processedCount + 1, s.aborted, s.merged ++ [processCompletion orig oc]⟩
        (by simp; omega)
      refine ⟨?_, ih2⟩
      rw [ih1]
      simp only [List.length_append, List.length_cons, List.length_nil]
      omega

theorem collectLoop_flushes (K : Nat) (stop : Nat → Bool) :
    ∀ (cs : List (Row × TaskOutcome)) (s : LoopState),
      ∃ ev : List (List Row × Bool),
        (collectLoop K stop cs s).flushes = s.flushes ++ ev ∧
        ev.map Prod.snd = headerFlags s.headerWritten ev.length ∧
        (collectLoop K stop cs s).headerWritten = (s.headerWritten || !ev.isEmpty) := by
  intro cs
  induction cs with
  | nil =>
    intro s
    refine ⟨[], by simp [collectLoop], ?_, by simp [collectLoop]⟩
    cases s.headerWritten <;> simp [headerFlags]
  | cons p rest ih =>
    intro s
    obtain ⟨orig, oc⟩ := p
    by_cases hstop : stop s.processedCount = true
    · rw [collectLoop_cons_stop K stop orig oc rest s hstop]
      refine ⟨[], by simp, ?_, by simp⟩
      cases s.headerWritten <;> simp [headerFlags]
    · rw [Bool.not_eq_true] at hstop
      by_cases hb : K ≤ s.batch.length + 1
      · rw [collectLoop_cons_flush K stop orig oc rest s hstop hb]
        obtain ⟨ev1, he1, he2, he3⟩ := ih
          ⟨[], true,
           saveBatch (s.batch ++ [processCompletion orig oc]) (!s.headerWritten) s.flushes,
           s.processedCount + 1, s.aborted, s.merged ++ [processCompletion orig oc]⟩
        refine ⟨(s.batch ++ [processCompletion orig oc], !s.headerWritten) :: ev1, ?_, ?_, ?_⟩
        · rw [he1]
          simp [saveBatch]
        · simp only [List.map_cons, List.length_cons]
          rw [he2]
          simp only [headerFlags, if_true]
          cases hw : s.headerWritten
          · simp [headerFlags]
          · simp [headerFlags, List.replicate_succ]
        · rw [he3]
          simp
      · rw [collectLoop_cons_go K stop orig oc rest s hstop hb]
        obtain ⟨ev1, he1, he2, he3⟩ := ih
          ⟨s.batch ++ [processCompletion orig oc], s.headerWritten, s.flushes,
           s.processedCount + 1, s.aborted, s.merged ++ [processCompletion orig oc]⟩
        exact ⟨ev1, he1, he2, he3⟩

theorem finalFlush_merged (s : LoopState) : (finalFlush s).merged = s.merged := by
  unfold finalFlush; split <;> rfl

theorem finalFlush_aborted (s : LoopState) : (finalFlush s).aborted = s.aborted := by
  unfold finalFlush; split <;> rfl

theorem finalFlush_pc (s : LoopState) : (finalFlush s).processedCount = s.processedCount := by
  unfold finalFlush; split <;> rfl

theorem runCollect_headerFlags (K : Nat) (hw : Bool) (stop : Nat → Bool)
    (cs : List (Row × TaskOutcome)) :
    (runCollect K hw stop cs).flushes.map Prod.snd =
      headerFlags hw (runCollect K hw stop cs).flushes.length := by
  obtain ⟨ev, he1, he2, he3⟩ := collectLoop_flushes K stop cs (initState hw)
  have he1' : (collectLoop K stop cs (initState hw)).flushes = ev := by simpa using he1
  have he2' : ev.map Prod.snd = headerFlags hw ev.length := he2
  have he3' : (collectLoop K stop cs (initState hw)).headerWritten = (hw || !ev.isEmpty) := he3
  unfold runCollect finalFlush
  by_cases hbe : (collectLoop K stop cs (initState hw)).batch.isEmpty
  · simp only [hbe, if_true]
    rw [he1', he2']
  · simp only [hbe, Bool.false_eq_true, if_false]
    simp only [saveBatch]
    rw [if_neg hbe, he1', he3']
    simp only [List.map_append, List.map_cons, List.map_nil, List.length_append,
      List.length_cons, List.length_nil, he2']
    cases hw with
    | true => simp [headerFlags, List.replicate_succ']
    | false =>
      cases ev with
      | nil => simp [headerFlags]
      | cons x xs => simp [headerFlags, List.replicate_succ']

theorem collectLoop_join (K : Nat) (stop : Nat → Bool) :
    ∀ (cs : List (Row × TaskOutcome)) (s : LoopState),
      joinFlushes s ++ s.batch = s.merged →
      joinFlushes (collectLoop K stop cs s) ++ (collectLoop K stop cs s).batch =
        (collectLoop K stop cs s).merged := by
  intro cs
  induction cs with
  | nil => intro s h; simpa [collectLoop] using h
  | cons p rest ih =>
    intro s h
    obtain ⟨orig, oc⟩ := p
    by_cases hstop : stop s.processedCount = true
    · rw [collectLoop_cons_stop K stop orig oc rest s hstop]
      exact h
    · rw [Bool.not_eq_true] at hstop
      by_cases hb : K ≤ s.batch.length + 1
      · rw [collectLoop_cons_flush K stop orig oc rest s hstop hb]
        apply ih
        have hne : ¬((s.batch ++ [processCompletion orig oc]).isEmpty = true) := by simp
        simp only [joinFlushes, saveBatch]
        rw [if_neg hne]
        simp only [List.map_append, List.map_cons, List.map_nil, List.flatten_append]
        show (s.flushes.map Prod.fst).flatten ++
            ((s.batch ++ [processCompletion orig oc]) ++ []) ++ [] =
          s.merged ++ [processCompletion orig oc]
        rw [← h]
        simp [joinFlushes]
      · rw [collectLoop_cons_go K stop orig oc rest s hstop hb]
        apply ih
        show joinFlushes s ++ (s.batch ++ [processCompletion orig oc]) =
          s.merged ++ [processCompletion orig oc]
        rw [← List.append_assoc, h]

theorem collectLoop_pc (K : Nat) (stop : Nat → Bool) :
    ∀ (cs : List (Row × TaskOutcome)) (s : LoopState),
      s.processedCount = s.merged.length →
      ((collectLoop K stop cs s).processedCount =
          (collectLoop K stop cs s).merged.length ∧
       ∀ j, stop j = true → s.processedCount ≤ j →
         (collectLoop K stop cs s).processedCount ≤ j) := by
  intro cs
  induction cs with
  | nil =>
    intro s h
    exact ⟨by simpa [collectLoop] using h, fun j hj hle => by simpa [collectLoop] using hle⟩
  | cons p rest ih =>
    intro s h
    obtain ⟨orig, oc⟩ := p
    by_cases hstop : stop s.processedCount = true
    · rw [collectLoop_cons_stop K stop orig oc rest s hstop]
      exact ⟨h, fun j hj hle => hle⟩
    · rw [Bool.not_eq_true] at hstop
      by_cases hb : K ≤ s.batch.length + 1
      · rw [collectLoop_cons_flush K stop orig oc rest s hstop hb]
        obtain ⟨ih1, ih2⟩ := ih
          ⟨[], true,
           saveBatch (s.batch ++ [processCompletion orig oc]) (!s.headerWritten) s.flushes,
           s.processedCount + 1, s.aborted, s.merged ++ [processCompletion orig oc]⟩
          (by simp [h])
        refine ⟨ih1, fun j hj hle => ?_⟩
        apply ih2 j hj
        have hne : s.processedCount ≠ j := by
          intro he
          rw [he] at hstop
          rw [hstop] at hj
          cases hj
        show s.processedCount + 1 ≤ j
        omega
      · rw [collectLoop_cons_go K stop orig oc rest s hstop hb]
        obtain ⟨ih1, ih2⟩ := ih
          ⟨s.batch ++ [processCompletion orig oc], s.headerWritten, s.flushes,
           s.processedCount + 1, s.aborted, s.merged ++ [processCompletion orig oc]⟩
          (by simp [h])
        refine ⟨ih1, fun j hj hle => ?_⟩
        apply ih2 j hj
        have hne : s.processedCount ≠ j := by
          intro he
          rw [he] at hstop
          rw [hstop] at hj
          cases hj
        show s.processedCount + 1 ≤ j
        omega

theorem collectLoop_merged_prefix (K : Nat) (stop : Nat → Bool) :
    ∀ (cs : List (Row × TaskOutcome)) (s : LoopState),
      ∃ n, n ≤ cs.length ∧
        (collectLoop K stop cs s).merged =
          s.merged ++ (cs.take n).map (fun p => processCompletion p.1 p.2) := by
  intro cs
  induction cs with
  | nil => intro s; exact ⟨0, by simp, by simp [collectLoop]⟩
  | cons p rest ih =>
    intro s
    obtain ⟨orig, oc⟩ := p
    by_cases hstop : stop s.processedCount = true
    · exact ⟨0, by simp, by rw [collectLoop_cons_stop K stop orig oc rest s hstop]; simp⟩
    · rw [Bool.not_eq_true] at hstop
      by_cases hb : K ≤ s.batch.length + 1
      · obtain ⟨n1, hn1, hm⟩ := ih
          ⟨[], true,
           saveBatch (s.batch ++ [processCompletion orig oc]) (!s.headerWritten) s.flushes,
           s.processedCount + 1, s.aborted, s.merged ++ [processCompletion orig oc]⟩
        refine ⟨n1 + 1, by simpa using hn1, ?_⟩
        rw [collectLoop_cons_flush K stop orig oc rest s hstop hb, hm]
        simp
      · obtain ⟨n1, hn1, hm⟩ := ih
          ⟨s.batch ++ [processCompletion orig oc], s.headerWritten, s.flushes,
           s.processedCount + 1, s.aborted, s.merged ++ [processCompletion orig oc]⟩
        refine ⟨n1 + 1, by simpa using hn1, ?_⟩
        rw [collectLoop_cons_go K stop orig oc rest s hstop hb, hm]
        simp

theorem submitGo_length_le (stop : Nat → Bool) (j : Nat) (hj : stop j = true) :
    ∀ (rows : List Row) (i : Nat), i ≤ j → (submitGo stop i rows).length ≤ j - i := by
  intro rows
  induction rows with
  | nil => intro i hi; simp [submitGo]
  | cons a rest ih =>
    intro i hi
    by_cases hs : stop i = true
    · simp [submitGo, hs]
    · have hij : i ≠ j := fun he => hs (he ▸ hj)
      rw [Bool.not_eq_true] at hs
      simp only [submitGo, hs, Bool.false_eq_true, if_false, List.length_cons]
      have := ih (i + 1) (by omega)
      omega

/-- C4: in a run that is never cancelled, with checkpoint threshold `K` and
`N > K` completed records, the loop performs exactly `N / K` intermediate
flushes (so at least `floor(N/K)`, and at least one) before the final
flush; and across the whole run (final flush included) the header flag is
`true` only on the first flush of a run against a sink with no prior
content, while a run appending to an already non-empty sink never writes a
header. -/
theorem C4_checkpointing (K : Nat) (sinkNonEmpty : Bool)
    (cs : List (Row × TaskOutcome)) (hK : 0 < K) (hN : K < cs.length) :
    (collectLoop K (fun _ => false) cs (initState sinkNonEmpty)).flushes.length =
      cs.length / K ∧
    1 ≤ cs.length / K ∧
    (runCollect K sinkNonEmpty (fun _ => false) cs).flushes.map Prod.snd =
      headerFlags sinkNonEmpty
        (runCollect K sinkNonEmpty (fun _ => false) cs).flushes.length ∧
    (sinkNonEmpty = true →
      ∀ e ∈ (runCollect K sinkNonEmpty (fun _ => false) cs).flushes, e.2 = false) := by
  obtain ⟨hlin, hlt⟩ := collectLoop_count K hK cs (initState sinkNonEmpty) (by simpa using hK)
  have hF : (collectLoop K (fun _ => false) cs (initState sinkNonEmpty)).flushes.length =
      cs.length / K := by
    have h1 : (initState sinkNonEmpty).flushes.length = 0 := rfl
    have h2 : (initState sinkNonEmpty).batch.length = 0 := rfl
    rw [h1, h2] at hlin
    simp only [Nat.zero_mul, Nat.zero_add] at hlin
    rw [← hlin, Nat.mul_comm, Nat.mul_add_div hK, Nat.div_eq_of_lt hlt]
    rfl
  refine ⟨hF, (Nat.one_le_div_iff hK).mpr (le_of_lt hN),
    runCollect_headerFlags K sinkNonEmpty _ cs, ?_⟩
  intro hsnk e he
  subst hsnk
  have hmap := runCollect_headerFlags K true (fun _ => false) cs
  simp only [headerFlags, if_true] at hmap
  have hmem : e.2 ∈ (runCollect K true (fun _ => false) cs).flushes.map Prod.snd :=
    List.mem_map_of_mem Prod.snd he
  rw [hmap] at hmem
  exact List.eq_of_mem_replicate hmem

/-- Witness for C4 with threshold 2 and 3 completions against an empty
sink. -/
theorem C4_checkpointing_witness :
    (collectLoop 2 (fun _ => false)
        (List.replicate 3 (([("UID", some (Json.num 0))] : Row), TaskOutcome.exn "e"))
        (initState false)).flushes.length =
      (List.replicate 3 (([("UID", some (Json.num 0))] : Row), TaskOutcome.exn "e")).length
        / 2 :=
  (C4_checkpointing 2 false _ (by decide) (by decide)).1

/-- Counterexample to C5 as stated.  Both tasks have completed — the second
is already yielded by `as_completed` when the stop flag is observed at the
check preceding its merge — yet the loop `break`s and its result is never
merged into the output: the run aborts with only the first OutputRow.  So
"the result of every task that had already completed is still merged" is
false on the code. -/
theorem C5_counterexample :
    (runCollect 100 false (fun i => decide (0 < i)) cs5).aborted = true ∧
    cs5.length = 2 ∧
    (runCollect 100 false (fun i => decide (0 < i)) cs5).merged =
      [processCompletion rowA5 (.exn "x")] ∧
    processCompletion rowB5 (.exn "y") ∉
      (runCollect 100 false (fun i => decide (0 < i)) cs5).merged := by
  refine ⟨rfl, rfl, rfl, ?_⟩
  intro hmem
  have hm : (runCollect 100 false (fun i => decide (0 < i)) cs5).merged =
      [processCompletion rowA5 (.exn "x")] := rfl
  rw [hm] at hmem
  have heq : processCompletion rowB5 (.exn "y") = processCompletion rowA5 (.exn "x") :=
    List.mem_singleton.mp hmem
  have hlen : (processCompletion rowB5 (.exn "y")).length =
      (processCompletion rowA5 (.exn "x")).length := congrArg List.length heq
  have h3 : (processCompletion rowB5 (.exn "y")).length = 3 := rfl
  have h2 : (processCompletion rowA5 (.exn "x")).length = 2 := rfl
  omega

/-- C5 amended: once the stop flag is set (true at some check `j`), no task
beyond the first `j` is submitted and at most `j` results are merged — the
results merged are exactly those collected before the flag was observed, a
prefix of the completion order, while every remaining completion (even of a
task that had already finished) is abandoned; whatever is buffered is still
flushed at run end (the sink holds exactly the merged rows); and the
terminal report is the aborted message, not the completed one. -/
theorem C5_cancellation_amended (K : Nat) (hw : Bool) (stop : Nat → Bool)
    (rows : List Row) (cs : List (Row × TaskOutcome)) :
    (∀ j, stop j = true → (submitLoop rows stop).length ≤ j) ∧
    (∀ j, stop j = true → (runCollect K hw stop cs).merged.length ≤ j) ∧
    (runCollect K hw stop cs).merged =
      (cs.take (runCollect K hw stop cs).merged.length).map
        (fun p => processCompletion p.1 p.2) ∧
    joinFlushes (runCollect K hw stop cs) = (runCollect K hw stop cs).merged ∧
    runReport true = "分析任务已中止。" := by
  refine ⟨?_, ?_, ?_, ?_, rfl⟩
  · intro j hj
    have hb := submitGo_length_le stop j hj rows 0 (Nat.zero_le j)
    simpa [submitLoop] using hb
  · intro j hj
    obtain ⟨hpc, hbound⟩ := collectLoop_pc K stop cs (initState hw) rfl
    have hb := hbound j hj (Nat.zero_le j)
    calc (runCollect K hw stop cs).merged.length
        = (collectLoop K stop cs (initState hw)).merged.length := by
          rw [runCollect, finalFlush_merged]
      _ = (collectLoop K stop cs (initState hw)).processedCount := hpc.symm
      _ ≤ j := hb
  · obtain ⟨n, hn, hm⟩ := collectLoop_merged_prefix K stop cs (initState hw)
    have hm2 : (runCollect K hw stop cs).merged =
        (cs.take n).map (fun p => processCompletion p.1 p.2) := by
      rw [runCollect, finalFlush_merged, hm]
      rfl
    rw [hm2]
    have hlen : ((cs.take n).map (fun p => processCompletion p.1 p.2)).length = n := by
      simp [List.length_take, Nat.min_eq_left hn]
    rw [hlen]
  · have hj := collectLoop_join K stop cs (initState hw) rfl
    unfold runCollect finalFlush
    by_cases hbe : (collectLoop K stop cs (initState hw)).batch.isEmpty
    · simp only [hbe, if_true]
      have hnil : (collectLoop K stop cs (initState hw)).batch = [] := by
        simpa using hbe
      rw [hnil] at hj
      simpa using hj
    · simp only [hbe, Bool.false_eq_true, if_false, joinFlushes, saveBatch]
      rw [← hj]
      simp [joinFlushes]

/-- Witness for the amended C5: with the stop flag true from the second
check on, at most one of the two completions is merged. -/
theorem C5_cancellation_amended_witness :
    (runCollect 2 false (fun i => decide (1 ≤ i)) cs5).merged.length ≤ 1 :=
  (C5_cancellation_amended 2 false (fun i => decide (1 ≤ i)) [rowA5] cs5).2.1 1 rfl
